import Mathlib

/-!
Verification of the DarkiT/service orchestration library against its
natural-language specification.  The Go source is shallowly embedded:
Go maps become association lists, goroutine interleavings relevant to a
claim become explicit parameters (e.g. the value a compare-and-swap
observes), durations become integers (nanoseconds), and fallible
operations return `Option GoErr` mirroring Go's `error` results.
-/

/-- `ServiceState` from types.go: the seven lifecycle states, in const order. -/
inductive ServiceState where
  | StateUninitialized
  | StateInitialized
  | StateStarting
  | StateRunning
  | StateStopping
  | StateStopped
  | StateError
deriving DecidableEq, Repr, Fintype

open ServiceState

/-- `ServiceState.String()` from types.go. -/
def ServiceState.toName : ServiceState → String
  | StateUninitialized => "Uninitialized"
  | StateInitialized => "Initialized"
  | StateStarting => "Starting"
  | StateRunning => "Running"
  | StateStopping => "Stopping"
  | StateStopped => "Stopped"
  | StateError => "Error"

/-- `ErrorCode` from types.go.  These nine constants are the complete error
taxonomy of the package; note in particular that there is no
`ConcurrentStateChange` and no `InvalidConfig` constant. -/
inductive ErrorCode where
  | ErrNone
  | ErrServiceNotFound
  | ErrServiceAlreadyExists
  | ErrInvalidState
  | ErrStartupTimeout
  | ErrStartupFailed
  | ErrShutdownTimeout
  | ErrShutdownFailed
  | ErrDependencyFailed
deriving DecidableEq, Repr, Fintype

open ErrorCode

/-- Go `error` values as they occur in this package: `*ServiceError`
(code, message, optional wrapped cause), `fmt.Errorf` wraps with `%w`,
opaque errors produced by caller-supplied hooks, and `context` errors. -/
inductive GoErr where
  | serviceBase : ErrorCode → String → GoErr
  | serviceCause : ErrorCode → String → GoErr → GoErr
  | wrapped : String → GoErr → GoErr
  | hook : String → GoErr
  | canceled : GoErr
deriving DecidableEq, Repr

/-- A `*ServiceError{Code, Message, Err}`; `Err == nil` is `none`. -/
def GoErr.service (c : ErrorCode) (msg : String) : Option GoErr → GoErr
  | none => .serviceBase c msg
  | some e => .serviceCause c msg e

/-- The `Code` of an error when it is a `*ServiceError`. -/
def GoErr.code : GoErr → Option ErrorCode
  | .serviceBase c _ => some c
  | .serviceCause c _ _ => some c
  | _ => none

/-- `ServicePriority` from types.go is `type ServicePriority int`. -/
abbrev ServicePriority := Int

def PriorityHighest : ServicePriority := 0
def PriorityHigh : ServicePriority := 25
def PriorityNormal : ServicePriority := 50
def PriorityLow : ServicePriority := 75
def PriorityLowest : ServicePriority := 100

/-! ## State machine (state_machine.go) -/

/-- A transition table, `map[ServiceState][]ServiceState`.  Modelled as a
total function to a list; an absent key is the empty list (Go's lookup of a
missing key yields a nil slice, over which the membership loop finds
nothing, like the `!exists` branch of `isValidTransition`). -/
abbrev TransitionTable := ServiceState → List ServiceState

/-- `makeDefaultTransitions` from state_machine.go. -/
def makeDefaultTransitions : TransitionTable
  | StateUninitialized => [StateInitialized]
  | StateInitialized => [StateStarting]
  | StateStarting => [StateRunning, StateError]
  | StateRunning => [StateStopping, StateError]
  | StateStopping => [StateStopped, StateError]
  | StateStopped => [StateStarting]
  | StateError => [StateInitialized, StateStopped]

/-- `StateMachine.isValidTransition`. -/
def isValidTransition (tbl : TransitionTable) (fromSt toSt : ServiceState) : Bool :=
  (tbl fromSt).contains toSt

/-- `StateMachine.TransitionTo`, with the interleaving made explicit.
`observed` is the value returned by the initial `sm.state.Load()`;
`atCAS` is the machine's state at the moment `CompareAndSwap` executes.
A concurrent transition between the two steps is exactly `observed ≠ atCAS`.
Returns the Go `error` result together with the machine's state after the
call (unchanged on failure, `target` on success). -/
def TransitionTo (tbl : TransitionTable) (observed atCAS target : ServiceState) :
    Option GoErr × ServiceState :=
  if ¬ isValidTransition tbl observed target then
    (some (.service ErrInvalidState
      ("invalid state transition from " ++ observed.toName ++ " to " ++ target.toName) none),
     atCAS)
  else if observed ≠ atCAS then
    (some (.service ErrInvalidState "state was changed by another goroutine" none), atCAS)
  else
    (none, target)

/-- `TransitionTo` when no other goroutine intervenes between the load and
the compare-and-swap. -/
def transitionToQuiet (tbl : TransitionTable) (current target : ServiceState) :
    Option GoErr × ServiceState :=
  TransitionTo tbl current current target

/-- The documented edge set of §4.2 of the spec. -/
def documentedEdges : List (ServiceState × ServiceState) :=
  [(StateUninitialized, StateInitialized),
   (StateInitialized, StateStarting),
   (StateStarting, StateRunning), (StateStarting, StateError),
   (StateRunning, StateStopping), (StateRunning, StateError),
   (StateStopping, StateStopped), (StateStopping, StateError),
   (StateStopped, StateStarting),
   (StateError, StateInitialized), (StateError, StateStopped)]

/-- C5: under the default table, a race-free `TransitionTo` succeeds exactly
on the documented edges; on every other pair it fails with an
InvalidState-coded error and leaves the state unchanged. -/
theorem transitionTo_default_table_edges :
    ∀ a b : ServiceState,
      (((transitionToQuiet makeDefaultTransitions a b).1 = none) ↔ (a, b) ∈ documentedEdges) ∧
      ((a, b) ∉ documentedEdges →
        (transitionToQuiet makeDefaultTransitions a b).2 = a ∧
        ((transitionToQuiet makeDefaultTransitions a b).1.map GoErr.code) =
          some (some ErrInvalidState)) := by
  decide

/-- C3 (counterexample): at a concrete raced transition (legal edge
Uninitialized→Initialized observed, but the state moved to Initialized
before the compare-and-swap), the failure is reported with the
`ErrInvalidState` code — there is no distinct `ConcurrentStateChange`
code in the taxonomy, so the claimed distinct code cannot be carried. -/
theorem transitionTo_cas_failure_code_counterexample :
    isValidTransition makeDefaultTransitions StateUninitialized StateInitialized = true ∧
    StateUninitialized ≠ StateInitialized ∧
    (TransitionTo makeDefaultTransitions StateUninitialized StateInitialized
      StateInitialized).1 =
      some (GoErr.service ErrInvalidState "state was changed by another goroutine" none) ∧
    ¬ ∃ c : ErrorCode, c ≠ ErrInvalidState ∧
      ((TransitionTo makeDefaultTransitions StateUninitialized StateInitialized
        StateInitialized).1.bind GoErr.code) = some c := by
  decide

/-- C3 (amended): when the legality check passes against the observed state
but another transition changed the state before the compare-and-swap,
`TransitionTo` fails with a `*ServiceError` whose code is `ErrInvalidState`
(message "state was changed by another goroutine") and leaves the state as
the concurrent writer set it. -/
theorem transitionTo_cas_failure_invalidState (tbl : TransitionTable)
    (observed atCAS target : ServiceState)
    (hvalid : isValidTransition tbl observed target = true) (hrace : observed ≠ atCAS) :
    TransitionTo tbl observed atCAS target =
      (some (.serviceBase ErrInvalidState "state was changed by another goroutine"), atCAS) := by
  unfold TransitionTo
  simp [hvalid, hrace, GoErr.service]

/-- Witness for `transitionTo_cas_failure_invalidState` at the concrete raced
input of the counterexample above. -/
theorem transitionTo_cas_failure_invalidState_witness :
    TransitionTo makeDefaultTransitions StateUninitialized StateInitialized StateInitialized =
      (some (.serviceBase ErrInvalidState "state was changed by another goroutine"),
       StateInitialized) :=
  transitionTo_cas_failure_invalidState makeDefaultTransitions StateUninitialized
    StateInitialized StateInitialized (by decide) (by decide)

/-! ## Dependency graph (dependency.go) -/

/-- `ServiceNode` from dependency.go. -/
structure ServiceNode where
  Name : String
  Priority : ServicePriority
  Deps : List String
deriving DecidableEq, Repr

/-- The graph's `map[string]*ServiceNode`, modelled as the node list in
insertion order (keys are the `Name` fields, unique by construction). -/
abbrev DependencyGraph := List ServiceNode

/-- Lookup `dg.nodes[name]`. -/
def lookupNode (g : DependencyGraph) (name : String) : Option ServiceNode :=
  g.find? (fun n => n.Name == name)

/-- The recursive closure `check` inside
`DependencyGraph.checkCyclicDependency`, together with the two identical
`for _, dep := range ... { check(dep) }` loops that drive it (over the
root `deps` and over each found node's `Deps`): a fold of `check` over a
list of names, threading the shared `visited` map.  `service` is the name
of the node being added.  `none` models the "cyclic dependency detected"
error return, `some v` a nil return with the visited set grown to `v`.
`fuel` decreases at every step; every chain of nested steps walks distinct
list positions and marks distinct names, so the fuel chosen in
`checkFuel` can never run out. -/
def cyclicCheckDeps (g : DependencyGraph) (service : String) :
    Nat → List String → List String → Option (List String)
  | 0, _, _ => none
  | _ + 1, visited, [] => some visited
  | fuel + 1, visited, d :: ds =>
    match (if d = service then none
           else if d ∈ visited then some visited
           else match lookupNode g d with
                | none => some (d :: visited)
                | some node => cyclicCheckDeps g service fuel (d :: visited) node.Deps) with
    | none => none
    | some v => cyclicCheckDeps g service fuel v ds

/-- Fuel that `cyclicCheckDeps` can never exhaust: more than every list
position and every name mentioned in the graph or the root list. -/
def checkFuel (g : DependencyGraph) (deps : List String) : Nat :=
  deps.length + (g.map (fun n => n.Deps.length)).sum + g.length + 3

/-- `DependencyGraph.checkCyclicDependency`. -/
def checkCyclicDependency (g : DependencyGraph) (service : String)
    (deps : List String) : Option GoErr :=
  match cyclicCheckDeps g service (checkFuel g deps) [] deps with
  | none => some (.serviceBase ErrDependencyFailed "cyclic dependency detected")
  | some _ => none

/-- `DependencyGraph.AddNode`.  Returns the Go error result together with
the graph afterwards (unchanged whenever an error is returned). -/
def DependencyGraph.AddNode (g : DependencyGraph) (node : ServiceNode) :
    Option GoErr × DependencyGraph :=
  if (lookupNode g node.Name).isSome then
    (some (.serviceBase ErrServiceAlreadyExists
      ("service " ++ node.Name ++ " already exists in dependency graph")), g)
  else
    match checkCyclicDependency g node.Name node.Deps with
    | some e => (some e, g)
    | none => (none, g ++ [node])

/-- Outcome of the `visit` closure in `GetStartOrder`.  `crash` models the
Go runtime panic from dereferencing the nil `*ServiceNode` returned by a
map lookup of an absent name (`node.Deps` with `node == nil`). `fuelOut`
is unreachable for the fuel chosen in `GetStartOrder` (the DFS depth is
bounded by the number of distinct names, see `gsoFuel`). -/
inductive GsoStep where
  | crash
  | cycle (name : String)
  | fuelOut
  | next (temp visited : List String) (order : List ServiceNode)
deriving DecidableEq, Repr

/-- The `visit` closure of `DependencyGraph.GetStartOrder` together with
the `for _, dep := range node.Deps { visit(dep) }` loop that drives it: a
fold of `visit` over a list of names.  Three-colour DFS with `temp`
(in-progress) and `visited` (done) maps and the shared post-order
accumulator `order`.  `fuel` decreases at every step and the fuel chosen
in `gsoFuel` can never run out (see `checkFuel`). -/
def gsoVisitList (g : DependencyGraph) :
    Nat → List String → List String → List ServiceNode → List String → GsoStep
  | 0, _, _, _, _ => .fuelOut
  | _ + 1, temp, visited, order, [] => .next temp visited order
  | fuel + 1, temp, visited, order, name :: rest =>
    match (if name ∈ temp then GsoStep.cycle name
           else if name ∈ visited then GsoStep.next temp visited order
           else match lookupNode g name with
                | none => GsoStep.crash
                | some node =>
                  match gsoVisitList g fuel (name :: temp) visited order node.Deps with
                  | .next temp' visited' order' =>
                    GsoStep.next (temp'.erase name) (name :: visited') (order' ++ [node])
                  | r => r) with
    | .next t v o => gsoVisitList g fuel t v o rest
    | r => r

/-- The `for name := range dg.nodes { if !visited[name] { visit(name) } }`
loop of `GetStartOrder`.  Go's map iteration order is unspecified; it is
modelled as the insertion order of the node list. -/
def gsoLoop (g : DependencyGraph) (fuel : Nat) (temp visited : List String)
    (order : List ServiceNode) : List String → GsoStep
  | [] => .next temp visited order
  | n :: ns =>
    if n ∈ visited then gsoLoop g fuel temp visited order ns
    else
      match gsoVisitList g fuel temp visited order [n] with
      | .next t v o => gsoLoop g fuel t v o ns
      | r => r

/-- Fuel that the DFS of `gsoVisitList` can never exhaust. -/
def gsoFuel (g : DependencyGraph) : Nat :=
  g.length + (g.map (fun n => n.Deps.length)).sum + 3

/-- The level computation of `GetStartOrder` for the node at position `i`
of the post-order list: `for dep { for j < i { if order[j].Name == dep &&
j > level { level = j } } }`, starting from 0. -/
def levelOf (order : List ServiceNode) (i : Nat) (deps : List String) : Nat :=
  deps.foldl (fun level dep =>
    (List.range i).foldl (fun lv j =>
      if (order.getD j ⟨"", 0, []⟩).Name = dep ∧ lv < j then j else lv) level) 0

/-- One step of the insertion sort used to model
`sort.Slice(services, func(i, j) { return P[i] < P[j] })`.  Go's
`sort.Slice` is unstable, so the relative order of equal priorities is
unspecified there; the model fixes one such order. -/
def sortInsert (n : ServiceNode) : List ServiceNode → List ServiceNode
  | [] => [n]
  | m :: ms => if n.Priority < m.Priority then n :: m :: ms else m :: sortInsert n ms

/-- Sort a level's nodes by ascending priority. -/
def sortByPriority (l : List ServiceNode) : List ServiceNode :=
  l.foldr sortInsert []

/-- Result of `DependencyGraph.GetStartOrder`: the ordered names, a
`*ServiceError`, or a runtime panic (see `GsoStep.crash`). -/
inductive GsoResult where
  | crash
  | fuelOut
  | err (e : GoErr)
  | ok (order : List String)
deriving DecidableEq, Repr

/-- `DependencyGraph.GetStartOrder`: DFS post-order over all nodes, then
grouping by level (`levelOf`), then per-level priority sort, concatenated
in ascending level order. -/
def DependencyGraph.GetStartOrder (g : DependencyGraph) : GsoResult :=
  match gsoLoop g (gsoFuel g) [] [] [] (g.map (fun n => n.Name)) with
  | .crash => .crash
  | .fuelOut => .fuelOut
  | .cycle name =>
    .err (.serviceBase ErrDependencyFailed ("cyclic dependency detected involving " ++ name))
  | .next _ _ order =>
    let withLevels := order.enum.map (fun p => (levelOf order p.1 p.2.Deps, p.2))
    let maxLevel := withLevels.foldl (fun m p => max m p.1) 0
    .ok ((List.range (maxLevel + 1)).flatMap (fun l =>
      (sortByPriority ((withLevels.filter (fun p => p.1 == l)).map (fun p => p.2))).map
        (fun n => n.Name)))

/-- The concrete failing input for C1: node "B" (priority 100, no
dependencies) inserted first, then node "A" (priority 0) depending on "B". -/
def c1NodeB : ServiceNode := ⟨"B", 100, []⟩

/-- See `c1NodeB`. -/
def c1NodeA : ServiceNode := ⟨"A", 0, ["B"]⟩

/-- C1 (code bug): both insertions are accepted, yet `GetStartOrder`
returns ["A", "B"] — the dependent "A" is placed before its dependency
"B", because "B" sits at post-order position 0, `levelOf` therefore puts
"A" in level 0 alongside "B", and "A"'s lower priority value wins the
within-level sort.  The result is the same under either map iteration
order, and it violates the guaranteed invariant that a dependency's index
precedes the dependent's index. -/
theorem getStartOrder_violates_dependency_invariant :
    DependencyGraph.AddNode [] c1NodeB = (none, [c1NodeB]) ∧
    DependencyGraph.AddNode [c1NodeB] c1NodeA = (none, [c1NodeB, c1NodeA]) ∧
    "B" ∈ c1NodeA.Deps ∧
    DependencyGraph.GetStartOrder [c1NodeB, c1NodeA] = .ok ["A", "B"] ∧
    DependencyGraph.GetStartOrder [c1NodeA, c1NodeB] = .ok ["A", "B"] ∧
    ¬ (["A", "B"].indexOf "B" < ["A", "B"].indexOf "A") := by
  decide

/-- C9: `AddNode` accepts a node whose declared dependency is absent from
the graph (the cycle walk simply skips names it cannot find), and a
subsequent `GetStartOrder` call dereferences the nil node returned by the
map lookup of that absent dependency: a runtime panic, not an error
return. -/
theorem getStartOrder_missing_dep_crashes (name dep : String) (p : ServicePriority)
    (hne : dep ≠ name) :
    DependencyGraph.AddNode [] ⟨name, p, [dep]⟩ = (none, [⟨name, p, [dep]⟩]) ∧
    DependencyGraph.GetStartOrder [⟨name, p, [dep]⟩] = .crash := by
  have hbeq : (name == dep) = false := beq_eq_false_iff_ne.mpr (Ne.symm hne)
  constructor
  · simp [DependencyGraph.AddNode, lookupNode, checkCyclicDependency, checkFuel,
      cyclicCheckDeps, hne]
  · simp [DependencyGraph.GetStartOrder, gsoFuel, gsoLoop, gsoVisitList,
      lookupNode, List.find?, hne, hbeq]

/-- Witness for `getStartOrder_missing_dep_crashes` with the concrete
names "api" (node) and "database" (absent dependency). -/
theorem getStartOrder_missing_dep_crashes_witness :
    DependencyGraph.AddNode [] ⟨"api", 50, ["database"]⟩ =
      (none, [⟨"api", 50, ["database"]⟩]) ∧
    DependencyGraph.GetStartOrder [⟨"api", 50, ["database"]⟩] = .crash :=
  getStartOrder_missing_dep_crashes "api" "database" 50 (by decide)

/-! ## C4: cycle detection in `AddNode` -/

/-- One dependency edge as traversed by the cycle walk: from a present
node's name to one of its declared dependencies. -/
def depStep (g : DependencyGraph) (a b : String) : Prop :=
  ∃ n, lookupNode g a = some n ∧ b ∈ n.Deps

/-- "The declared dependency chain transitively reaches back to the node
itself": some declared dependency reaches the node's own name through the
graph's edges (the trivial chain `d = node.Name`, a self-dependency, is
included via reflexivity). -/
def reachesBack (g : DependencyGraph) (node : ServiceNode) : Prop :=
  ∃ d ∈ node.Deps, Relation.ReflTransGen (depStep g) d node.Name

/-- Invariant of every successful run of the cycle walk: the visited set
only grows, every walked root is in it and differs from `service`, and
each newly visited name differs from `service` and has all of its
dependencies visited as well. -/
theorem cyclicCheckDeps_some_inv (g : DependencyGraph) (s : String) :
    ∀ fuel visited names V,
      cyclicCheckDeps g s fuel visited names = some V →
      visited ⊆ V ∧ (∀ d ∈ names, d ∈ V ∧ d ≠ s) ∧
      ∀ v ∈ V, v ∉ visited → v ≠ s ∧
        ∀ n, lookupNode g v = some n → ∀ d ∈ n.Deps, d ∈ V := by
  intro fuel
  induction fuel with
  | zero =>
    intro visited names V h
    simp [cyclicCheckDeps] at h
  | succ f ih =>
    intro visited names V h
    match names with
    | [] =>
      simp only [cyclicCheckDeps, Option.some.injEq] at h
      subst h
      exact ⟨List.Subset.refl _, by simp, fun v hv hnv => absurd hv hnv⟩
    | d :: ds =>
      rw [cyclicCheckDeps] at h
      by_cases hds : d = s
      · simp [hds] at h
      · by_cases hdv : d ∈ visited
        · simp only [if_neg hds, if_pos hdv] at h
          obtain ⟨h1, h2, h3⟩ := ih visited ds V h
          refine ⟨h1, ?_, h3⟩
          intro x hx
          rcases List.mem_cons.mp hx with rfl | hx'
          · exact ⟨h1 hdv, hds⟩
          · exact h2 x hx'
        · cases hlook : lookupNode g d with
          | none =>
            simp only [if_neg hds, if_neg hdv, hlook] at h
            obtain ⟨h1, h2, h3⟩ := ih (d :: visited) ds V h
            have hdV : d ∈ V := h1 (List.mem_cons_self d visited)
            refine ⟨fun x hx => h1 (List.mem_cons_of_mem d hx), ?_, ?_⟩
            · intro x hx
              rcases List.mem_cons.mp hx with rfl | hx'
              · exact ⟨hdV, hds⟩
              · exact h2 x hx'
            · intro v hv hnv
              by_cases hvd : v = d
              · subst hvd
                exact ⟨hds, fun n hn => by rw [hlook] at hn; cases hn⟩
              · exact h3 v hv (by simp [hvd, hnv])
          | some node =>
            simp only [if_neg hds, if_neg hdv, hlook] at h
            cases hinner : cyclicCheckDeps g s f (d :: visited) node.Deps with
            | none => rw [hinner] at h; cases h
            | some v1 =>
              rw [hinner] at h
              obtain ⟨i1, i2, i3⟩ := ih (d :: visited) node.Deps v1 hinner
              obtain ⟨r1, r2, r3⟩ := ih v1 ds V h
              have hsubv : visited ⊆ V := fun x hx =>
                r1 (i1 (List.mem_cons_of_mem d hx))
              have hdV : d ∈ V := r1 (i1 (List.mem_cons_self d visited))
              refine ⟨hsubv, ?_, ?_⟩
              · intro x hx
                rcases List.mem_cons.mp hx with rfl | hx'
                · exact ⟨hdV, hds⟩
                · exact r2 x hx'
              · intro v hv hnv
                by_cases hvv1 : v ∈ v1
                · by_cases hvd : v = d
                  · subst hvd
                    refine ⟨hds, ?_⟩
                    intro n hn dd hdd
                    rw [hlook] at hn
                    cases hn
                    exact r1 ((i2 dd hdd).1)
                  · have := i3 v hvv1 (by simp [hvd, hnv])
                    exact ⟨this.1, fun n hn dd hdd => r1 (this.2 n hn dd hdd)⟩
                · exact r3 v hv hvv1

/-- If some declared dependency reaches `s` through the graph, the cycle
walk reports the cyclic-dependency error. -/
theorem checkCyclicDependency_detects (g : DependencyGraph) (s : String)
    (deps : List String) (hreach : ∃ d ∈ deps, Relation.ReflTransGen (depStep g) d s) :
    checkCyclicDependency g s deps =
      some (.serviceBase ErrDependencyFailed "cyclic dependency detected") := by
  unfold checkCyclicDependency
  cases hrun : cyclicCheckDeps g s (checkFuel g deps) [] deps with
  | none => rfl
  | some V =>
    exfalso
    obtain ⟨-, h2, h3⟩ := cyclicCheckDeps_some_inv g s (checkFuel g deps) [] deps V hrun
    obtain ⟨d, hd, hchain⟩ := hreach
    have hmem : ∀ a b, Relation.ReflTransGen (depStep g) a b → a ∈ V → b ∈ V := by
      intro a b hab
      induction hab with
      | refl => exact id
      | tail _ hstep ih =>
        intro ha
        obtain ⟨n, hn, hdep⟩ := hstep
        exact (h3 _ (ih ha) (List.not_mem_nil _)).2 n hn _ hdep
    have hsV : s ∈ V := hmem d s hchain (h2 d hd).1
    exact (h3 s hsV (List.not_mem_nil s)).1 rfl

/-- C4 (amended): inserting a node whose name is not yet present and whose
declared dependency chain transitively reaches back to the node itself
fails with the cyclic-dependency error (`ErrDependencyFailed`, "cyclic
dependency detected") and leaves the graph's node set exactly unchanged.
(When the name is already present, `AddNode` instead fails earlier with
`ErrServiceAlreadyExists` — see the counterexample.) -/
theorem addNode_cyclic_rejected (g : DependencyGraph) (node : ServiceNode)
    (hfresh : lookupNode g node.Name = none) (hreach : reachesBack g node) :
    DependencyGraph.AddNode g node =
      (some (.serviceBase ErrDependencyFailed "cyclic dependency detected"), g) := by
  unfold DependencyGraph.AddNode
  rw [hfresh, checkCyclicDependency_detects g node.Name node.Deps hreach]
  rfl

/-- Witness for `addNode_cyclic_rejected`: the graph already holds
"B" → depends on → "A"; adding "A" with dependency "B" closes the cycle
and is rejected, leaving the single-node graph intact. -/
theorem addNode_cyclic_rejected_witness :
    DependencyGraph.AddNode [⟨"B", 50, ["A"]⟩] ⟨"A", 50, ["B"]⟩ =
      (some (.serviceBase ErrDependencyFailed "cyclic dependency detected"),
       [⟨"B", 50, ["A"]⟩]) :=
  addNode_cyclic_rejected [⟨"B", 50, ["A"]⟩] ⟨"A", 50, ["B"]⟩ (by decide)
    ⟨"B", by decide,
      Relation.ReflTransGen.single ⟨⟨"B", 50, ["A"]⟩, by decide, by decide⟩⟩

/-- C4 (counterexample to the claim as stated): for a node whose name is
already present, `AddNode` fails with `ErrServiceAlreadyExists`, not with
a cyclic-dependency error, even though the node's dependency chain
reaches back to itself (graph {A, B→A}, inserting A with dependency B). -/
theorem addNode_cyclic_claim_counterexample :
    reachesBack [⟨"A", 50, []⟩, ⟨"B", 50, ["A"]⟩] ⟨"A", 50, ["B"]⟩ ∧
    DependencyGraph.AddNode [⟨"A", 50, []⟩, ⟨"B", 50, ["A"]⟩] ⟨"A", 50, ["B"]⟩ =
      (some (.serviceBase ErrServiceAlreadyExists
        "service A already exists in dependency graph"),
       [⟨"A", 50, []⟩, ⟨"B", 50, ["A"]⟩]) ∧
    (GoErr.serviceBase ErrServiceAlreadyExists
        "service A already exists in dependency graph").code ≠
      some ErrDependencyFailed := by
  refine ⟨⟨"B", by decide,
    Relation.ReflTransGen.single ⟨⟨"B", 50, ["A"]⟩, by decide, by decide⟩⟩, by decide, by decide⟩

/-! ## Lifecycle contract: BaseService (base_service.go) -/

/-- `BaseService`: name, declared dependencies, priority, the state held
by its `StateMachine` (created with the default transition table), and
the optional lifecycle hooks.  A hook is modelled by the result it
returns when invoked (`none` = nil error); an unset hook (`nil` function
pointer) is `none` at the outer level.  Contexts are dropped: no hook of
the model consults one. -/
structure BaseService where
  name : String
  deps : List String
  priority : ServicePriority
  state : ServiceState
  initFunc : Option (Option GoErr)
  startFunc : Option (Option GoErr)
  stopFunc : Option (Option GoErr)
deriving DecidableEq, Repr

/-- `bs.stateMachine.TransitionTo(target)` on the service's machine,
race-free (each service's state is owned by the goroutine driving it in
every scenario the claims quantify over). -/
def BaseService.smTransition (s : BaseService) (target : ServiceState) :
    Option GoErr × BaseService :=
  match transitionToQuiet makeDefaultTransitions s.state target with
  | (e, st) => (e, {s with state := st})

/-- `BaseService.Init`: transition to Initialized, then run the init hook;
a hook failure triggers `TransitionTo(StateError)` whose result Go
discards (from Initialized that transition is illegal, so the state in
fact stays Initialized), and the hook's error is wrapped. -/
def BaseService.Init (s : BaseService) : Option GoErr × BaseService :=
  match s.smTransition StateInitialized with
  | (some e, s') => (some (.wrapped "failed to transition to Initialized state" e), s')
  | (none, s') =>
    match s'.initFunc with
    | some (some e) =>
      ((some (.wrapped "init function failed" e), (s'.smTransition StateError).2))
    | _ => (none, s')

/-- `BaseService.Start`: `Init` first when Uninitialized, then transition
to Starting, run the start hook (failure forces Error, result of that
forced transition discarded), then transition to Running. -/
def BaseService.Start (s : BaseService) : Option GoErr × BaseService :=
  match (if s.state = StateUninitialized then
          match s.Init with
          | (some e, s') => (some (.wrapped "failed to initialize service" e), s')
          | (none, s') => (none, s')
         else (none, s) : Option GoErr × BaseService) with
  | (some e, s') => (some e, s')
  | (none, s₁) =>
    match s₁.smTransition StateStarting with
    | (some e, s₂) => (some (.wrapped "failed to transition to Starting state" e), s₂)
    | (none, s₂) =>
      match s₂.startFunc with
      | some (some e) =>
        ((some (.wrapped "start function failed" e), (s₂.smTransition StateError).2))
      | _ => s₂.smTransition StateRunning

/-- `BaseService.Stop`: transition to Stopping, run the stop hook
(failure forces Error and returns the hook's error unwrapped), then
transition to Stopped. -/
def BaseService.Stop (s : BaseService) : Option GoErr × BaseService :=
  match s.smTransition StateStopping with
  | (some e, s') => (some e, s')
  | (none, s₁) =>
    match s₁.stopFunc with
    | some (some e) => ((some e, (s₁.smTransition StateError).2))
    | _ => s₁.smTransition StateStopped

/-- `BaseService.HealthCheck`: fails with `ErrInvalidState` unless Running. -/
def BaseService.HealthCheck (s : BaseService) : Option GoErr :=
  if s.state ≠ StateRunning then
    some (.serviceBase ErrInvalidState "service is not running")
  else none

/-- C6 (amended): for a `BaseService` whose start hook is set and fails,
started from a state from which a normal start can proceed — Initialized,
Stopped, or Uninitialized with no failing init hook — `Start` leaves the
service in state Error and returns an error wrapping the hook's error. -/
theorem baseService_start_hook_failure (s : BaseService) (e : GoErr)
    (hhook : s.startFunc = some (some e))
    (hstate : s.state = StateInitialized ∨ s.state = StateStopped ∨
      (s.state = StateUninitialized ∧ ∀ e', s.initFunc ≠ some (some e'))) :
    (BaseService.Start s).1 = some (.wrapped "start function failed" e) ∧
    (BaseService.Start s).2.state = StateError := by
  rcases hstate with h | h | ⟨h, hinit⟩
  · simp [BaseService.Start, BaseService.Init, BaseService.smTransition,
      transitionToQuiet, TransitionTo, isValidTransition, makeDefaultTransitions,
      h, hhook, GoErr.service]
  · simp [BaseService.Start, BaseService.Init, BaseService.smTransition,
      transitionToQuiet, TransitionTo, isValidTransition, makeDefaultTransitions,
      h, hhook, GoErr.service]
  · match hif : s.initFunc with
    | none =>
      simp [BaseService.Start, BaseService.Init, BaseService.smTransition,
        transitionToQuiet, TransitionTo, isValidTransition, makeDefaultTransitions,
        h, hif, hhook, GoErr.service]
    | some none =>
      simp [BaseService.Start, BaseService.Init, BaseService.smTransition,
        transitionToQuiet, TransitionTo, isValidTransition, makeDefaultTransitions,
        h, hif, hhook, GoErr.service]
    | some (some e') => exact absurd hif (hinit e')

/-- Witness for `baseService_start_hook_failure`: a freshly initialized
service with a failing start hook ends in Error with the wrapped hook
error. -/
theorem baseService_start_hook_failure_witness :
    (BaseService.Start ⟨"svc", [], 50, StateInitialized, none,
        some (some (.hook "boom")), none⟩).1 =
      some (.wrapped "start function failed" (.hook "boom")) ∧
    (BaseService.Start ⟨"svc", [], 50, StateInitialized, none,
        some (some (.hook "boom")), none⟩).2.state = StateError :=
  baseService_start_hook_failure _ _ (by decide) (Or.inl (by decide))

/-- C6 (counterexample to the claim as stated): a `BaseService` in state
Running whose start hook is set and would fail: `Start` fails on the
illegal Running→Starting transition before ever running the hook, the
returned error wraps the transition error (not the hook's error), and the
state stays Running, not Error. -/
theorem baseService_start_hook_failure_counterexample :
    (⟨"svc", [], 50, StateRunning, none, some (some (.hook "boom")), none⟩ :
      BaseService).startFunc = some (some (.hook "boom")) ∧
    (BaseService.Start ⟨"svc", [], 50, StateRunning, none,
        some (some (.hook "boom")), none⟩).2.state = StateRunning ∧
    StateRunning ≠ StateError ∧
    (BaseService.Start ⟨"svc", [], 50, StateRunning, none,
        some (some (.hook "boom")), none⟩).1 =
      some (.wrapped "failed to transition to Starting state"
        (.serviceBase ErrInvalidState "invalid state transition from Running to Starting")) := by
  decide

/-! ## StartWithRetry (base_service.go) -/

/-- `RetryOptions` from base_service.go; durations in nanoseconds,
`MaxAttempts` a Go `int`. -/
structure RetryOptions where
  MaxAttempts : Int
  Delay : Int
  MaxDelay : Int
deriving DecidableEq, Repr

/-- The three ways `StartWithRetry` returns: nil, `ctx.Err()` from the
cancellation branch of the select, or the final
`fmt.Errorf("service start failed after %d attempts: %w", attempt, lastErr)`. -/
inductive RetryOutcome where
  | ok
  | ctxCanceled
  | failed (attempts : Int) (lastErr : Option GoErr)
deriving DecidableEq, Repr

/-- The loop of `BaseService.StartWithRetry`.  The outcomes of the
successive `bs.Start(ctx)` calls are abstracted as the schedule
`startRes i` (result of call number `i`), and `cancelledAt i` says whether
the context is cancelled during the back-off wait that follows failure
number `i`.  `fuel` is exactly the remaining iteration count
`maxAttempts - attempt` of the `for attempt < opts.MaxAttempts` loop.
Returns the list of completed waits (in order, with their durations)
together with the outcome. -/
def retryLoop (startRes : Nat → Option GoErr) (cancelledAt : Nat → Bool)
    (maxAttempts maxDelay : Int) :
    Nat → Int → Int → Option GoErr → List Int → List Int × RetryOutcome
  | 0, attempt, _, lastErr, waits => (waits.reverse, .failed attempt lastErr)
  | fuel + 1, attempt, delay, _, waits =>
    match startRes attempt.toNat with
    | none => (waits.reverse, .ok)
    | some err =>
      if attempt + 1 ≥ maxAttempts then (waits.reverse, .failed (attempt + 1) (some err))
      else if cancelledAt attempt.toNat then (waits.reverse, .ctxCanceled)
      else retryLoop startRes cancelledAt maxAttempts maxDelay fuel (attempt + 1)
        (min (delay * 2) maxDelay) (some err) (delay :: waits)

/-- `BaseService.StartWithRetry` over the abstracted `Start` schedule. -/
def StartWithRetry (startRes : Nat → Option GoErr) (cancelledAt : Nat → Bool)
    (opts : RetryOptions) : List Int × RetryOutcome :=
  retryLoop startRes cancelledAt opts.MaxAttempts opts.MaxDelay
    opts.MaxAttempts.toNat 0 opts.Delay none []

/-- The actual duration of completed back-off wait number `i`: the initial
delay uncapped for the first wait, `min(delay·2^i, maxDelay)` afterwards. -/
def retryDelay (D M : Int) : Nat → Int
  | 0 => D
  | k + 1 => min (D * 2 ^ (k + 1)) M

/-- C8 (counterexample to the claim as stated): with
`{MaxAttempts := 2, Delay := 10, MaxDelay := 5}` and a failing start, the
single completed wait lasts 10 — not `min(10·2^0, 5) = 5` as the claimed
formula `min(delay·2^attempt, maxDelay)` demands for the wait after the
first failure. -/
theorem startWithRetry_wait_formula_counterexample :
    (StartWithRetry (fun _ => some (.hook "e")) (fun _ => false) ⟨2, 10, 5⟩).1 = [10] ∧
    min ((10 : Int) * 2 ^ 0) 5 = 5 ∧ (10 : Int) ≠ 5 := by
  decide

/-- `delay = min(delay*2, opts.MaxDelay)` advances `retryDelay` by one
step, provided the cap is non-negative. -/
theorem retryDelay_next (D M : Int) (hM : 0 ≤ M) (k : Nat) :
    min (retryDelay D M k * 2) M = retryDelay D M (k + 1) := by
  cases k with
  | zero => simp [retryDelay, pow_one]
  | succ k =>
    have h2 : D * 2 ^ (k + 1 + 1) = D * 2 ^ (k + 1) * 2 := by ring
    rw [retryDelay, retryDelay, h2]
    generalize D * 2 ^ (k + 1) = a
    omega

/-- Every run of the retry loop produces an initial segment of the
`retryDelay` wait sequence. -/
theorem retryLoop_waits (startRes : Nat → Option GoErr) (cancelledAt : Nat → Bool)
    (maxA D M : Int) (hM : 0 ≤ M) :
    ∀ fuel attempt lastErr k,
      ∃ n, (retryLoop startRes cancelledAt maxA M fuel attempt (retryDelay D M k) lastErr
        (((List.range k).map (retryDelay D M)).reverse)).1 =
        (List.range n).map (retryDelay D M) := by
  intro fuel
  induction fuel with
  | zero => exact fun attempt lastErr k => ⟨k, by simp [retryLoop]⟩
  | succ f ih =>
    intro attempt lastErr k
    simp only [retryLoop]
    cases startRes attempt.toNat with
    | none => exact ⟨k, by simp⟩
    | some err =>
      by_cases hbreak : attempt + 1 ≥ maxA
      · exact ⟨k, by simp [hbreak]⟩
      · cases hc : cancelledAt attempt.toNat with
        | true => exact ⟨k, by simp [hbreak, hc]⟩
        | false =>
          have hacc : retryDelay D M k :: ((List.range k).map (retryDelay D M)).reverse =
              ((List.range (k + 1)).map (retryDelay D M)).reverse := by
            simp [List.range_succ]
          simp only [if_neg hbreak, Bool.false_eq_true, if_false,
            retryDelay_next D M hM k, hacc]
          exact ih (attempt + 1) (some err) (k + 1)

/-- When every `Start` call fails and the context is never cancelled, the
loop runs `maxAttempts` attempts and reports that count together with the
last error. -/
theorem retryLoop_exhausts (startRes : Nat → Option GoErr) (cancelledAt : Nat → Bool)
    (maxA M : Int) (hfail : ∀ i, startRes i ≠ none) (hnc : ∀ i, cancelledAt i = false) :
    ∀ (fuel : Nat) (attempt delay : Int) (lastErr : Option GoErr) (acc : List Int),
      1 ≤ fuel → (fuel : Int) = maxA - attempt → 0 ≤ attempt →
      (retryLoop startRes cancelledAt maxA M fuel attempt delay lastErr acc).2 =
        .failed maxA (startRes (maxA - 1).toNat) := by
  intro fuel
  induction fuel with
  | zero => intro attempt delay lastErr acc h1; omega
  | succ f ih =>
    intro attempt delay lastErr acc _ hfa ha
    simp only [retryLoop]
    cases hs : startRes attempt.toNat with
    | none => exact absurd hs (hfail _)
    | some err =>
      by_cases hbreak : attempt + 1 ≥ maxA
      · have hm : maxA = attempt + 1 := by push_cast at hfa; omega
        have hidx : (maxA - 1).toNat = attempt.toNat := by omega
        simp [hbreak, hm, hidx, hs]
      · have hc := hnc attempt.toNat
        simp only [if_neg hbreak, hc, Bool.false_eq_true, if_false]
        refine ih (attempt + 1) _ (some err) _ (by push_cast at hfa; omega)
          (by push_cast at hfa ⊢; omega) (by omega)

/-- If the starts keep failing and the context is cancelled during the
wait after failure number `k` (with at least one further attempt still
allowed), the loop returns the cancellation outcome. -/
theorem retryLoop_cancelled (startRes : Nat → Option GoErr) (cancelledAt : Nat → Bool)
    (maxA M : Int) :
    ∀ (k fuel : Nat) (attempt delay : Int) (lastErr : Option GoErr) (acc : List Int),
      (fuel : Int) = maxA - attempt → 0 ≤ attempt →
      (∀ i, i ≤ attempt.toNat + k → startRes i ≠ none) →
      (∀ i, attempt.toNat ≤ i → i < attempt.toNat + k → cancelledAt i = false) →
      cancelledAt (attempt.toNat + k) = true →
      attempt + (k : Int) + 1 < maxA →
      (retryLoop startRes cancelledAt maxA M fuel attempt delay lastErr acc).2 =
        .ctxCanceled := by
  intro k
  induction k with
  | zero =>
    intro fuel attempt delay lastErr acc hfa ha hfail hnc hcanc hlt
    cases fuel with
    | zero => exfalso; push_cast at hfa hlt; omega
    | succ f =>
      simp only [retryLoop]
      cases hs : startRes attempt.toNat with
      | none => exact absurd hs (hfail attempt.toNat (by omega))
      | some err =>
        have hbreak : ¬ (attempt + 1 ≥ maxA) := by push_cast at hlt; omega
        have hcc : cancelledAt attempt.toNat = true := by simpa using hcanc
        simp [hbreak, hcc]
  | succ k ih =>
    intro fuel attempt delay lastErr acc hfa ha hfail hnc hcanc hlt
    cases fuel with
    | zero => exfalso; push_cast at hfa hlt; omega
    | succ f =>
      simp only [retryLoop]
      cases hs : startRes attempt.toNat with
      | none => exact absurd hs (hfail attempt.toNat (by omega))
      | some err =>
        have hbreak : ¬ (attempt + 1 ≥ maxA) := by push_cast at hlt; omega
        have hc0 : cancelledAt attempt.toNat = false :=
          hnc attempt.toNat (le_refl _) (by omega)
        simp only [if_neg hbreak, hc0, Bool.false_eq_true, if_false]
        have htn : (attempt + 1).toNat = attempt.toNat + 1 := by omega
        refine ih f (attempt + 1) _ (some err) _ (by push_cast at hfa ⊢; omega) (by omega)
          ?_ ?_ ?_ (by push_cast at hlt ⊢; omega)
        · intro i hi
          exact hfail i (by omega)
        · intro i hi1 hi2
          exact hnc i (by omega) (by omega)
        · rw [htn]
          have : attempt.toNat + 1 + k = attempt.toNat + (k + 1) := by omega
          rw [this]
          exact hcanc

/-- C8 (amended): `StartWithRetry` repeatedly calls `Start`; after failure
number `i` it waits `retryDelay i` — the initial delay, uncapped, for the
first wait, and `min(delay·2^i, maxDelay)` for each later one — so every
run's completed waits form an initial segment of that sequence; if the
context is cancelled while waiting (all earlier starts having failed and
another attempt being allowed) it returns the context's cancellation
error; and when every attempt fails with no cancellation it returns an
error wrapping the last `Start` error and carrying the number of attempts
actually made, `MaxAttempts`. -/
theorem startWithRetry_behaviour (startRes : Nat → Option GoErr)
    (cancelledAt : Nat → Bool) (opts : RetryOptions) (hM : 0 ≤ opts.MaxDelay) :
    (∃ n, (StartWithRetry startRes cancelledAt opts).1 =
      (List.range n).map (retryDelay opts.Delay opts.MaxDelay)) ∧
    (1 ≤ opts.MaxAttempts → (∀ i, startRes i ≠ none) → (∀ i, cancelledAt i = false) →
      (StartWithRetry startRes cancelledAt opts).2 =
        .failed opts.MaxAttempts (startRes (opts.MaxAttempts - 1).toNat)) ∧
    (∀ k : Nat, (∀ i, i ≤ k → startRes i ≠ none) → (∀ i, i < k → cancelledAt i = false) →
      cancelledAt k = true → (k : Int) + 1 < opts.MaxAttempts →
      (StartWithRetry startRes cancelledAt opts).2 = .ctxCanceled) := by
  refine ⟨?_, ?_, ?_⟩
  · have h := retryLoop_waits startRes cancelledAt opts.MaxAttempts opts.Delay
      opts.MaxDelay hM opts.MaxAttempts.toNat 0 none 0
    simpa [StartWithRetry, retryDelay] using h
  · intro h1 hfail hnc
    exact retryLoop_exhausts startRes cancelledAt opts.MaxAttempts opts.MaxDelay hfail hnc
      opts.MaxAttempts.toNat 0 opts.Delay none [] (by omega) (by omega) (by omega)
  · intro k hf hc hct hlt
    refine retryLoop_cancelled startRes cancelledAt opts.MaxAttempts opts.MaxDelay k
      opts.MaxAttempts.toNat 0 opts.Delay none [] (by omega) (by omega) ?_ ?_ ?_ ?_
    · simpa using hf
    · simpa using hc
    · simpa using hct
    · simpa using hlt

/-- Witness for `startWithRetry_behaviour`: three attempts, every start
failing, never cancelled — the outcome records 3 attempts and the last
error. -/
theorem startWithRetry_behaviour_witness :
    (StartWithRetry (fun _ => some (.hook "x")) (fun _ => false) ⟨3, 2, 100⟩).2 =
      .failed 3 (some (.hook "x")) :=
  (startWithRetry_behaviour (fun _ => some (.hook "x")) (fun _ => false) ⟨3, 2, 100⟩
    (by decide)).2.1 (by decide) (fun i => by simp) (fun i => rfl)

/-! ## Orchestrator: ServiceGroup (service_group.go) -/

/-- Result of an orchestrator operation that may end in a Go runtime panic
(propagated from `GetStartOrder`, see `GsoStep.crash`); `fuelOut` is the
unreachable fuel artifact. -/
inductive GoResult (α : Type) where
  | crash
  | fuelOut
  | ok (val : α)
deriving DecidableEq, Repr

/-- `ServiceGroupOptions`; durations in nanoseconds. -/
structure ServiceGroupOptions where
  StartTimeout : Int
  StopTimeout : Int
  HealthCheckInterval : Int
deriving DecidableEq, Repr

/-- `DefaultServiceGroupOptions`: one minute, one minute, thirty seconds. -/
def DefaultServiceGroupOptions : ServiceGroupOptions :=
  ⟨60000000000, 60000000000, 30000000000⟩

/-- `ServiceGroup`: the registry (`sync.Map`, modelled as an association
list in insertion order), the dependency graph's nodes, the options after
construction-time normalization, the `isStarting` single-flight guard, and
whether the root context has been cancelled. -/
structure ServiceGroup where
  services : List (String × BaseService)
  nodes : DependencyGraph
  options : ServiceGroupOptions
  isStarting : Bool
  cancelled : Bool
deriving DecidableEq, Repr

/-- `NewServiceGroup(ctx, opts...)`: `some o` models a call passing an
options value, `none` a call passing none.  A passed value whose
`HealthCheckInterval` is non-positive has the interval replaced by the
default ("确保健康检查间隔有效" — ensure the interval is valid). -/
def NewServiceGroup (opts : Option ServiceGroupOptions) : ServiceGroup :=
  let options := match opts with
    | none => DefaultServiceGroupOptions
    | some o =>
      if o.HealthCheckInterval ≤ 0 then
        { o with HealthCheckInterval := DefaultServiceGroupOptions.HealthCheckInterval }
      else o
  ⟨[], [], options, false, false⟩

/-- Replace the registry entry for `name` (Go mutates the service in place
through the pointer held by the `sync.Map`). -/
def updateService (svcs : List (String × BaseService)) (name : String)
    (s : BaseService) : List (String × BaseService) :=
  svcs.map (fun p => if p.1 = name then (p.1, s) else p)

/-- `ServiceGroup.startService`: load from the registry, call the
service's `Start`, wrap a failure as `ErrStartupFailed` naming the
service. -/
def ServiceGroup.startService (svcs : List (String × BaseService)) (name : String) :
    Option GoErr × List (String × BaseService) :=
  match svcs.find? (fun p => p.1 == name) with
  | none => (some (.serviceBase ErrServiceNotFound ("service " ++ name ++ " not found")), svcs)
  | some p =>
    match p.2.Start with
    | (some e, s') =>
      (some (.serviceCause ErrStartupFailed ("failed to start service " ++ name) e),
       updateService svcs name s')
    | (none, s') => (none, updateService svcs name s')

/-- `ServiceGroup.stopService`: load, call `Stop`, wrap a failure with
`fmt.Errorf("failed to stop service %s: %w", ...)`.  (The metrics
recording calls are outside the verified core.) -/
def ServiceGroup.stopService (svcs : List (String × BaseService)) (name : String) :
    Option GoErr × List (String × BaseService) :=
  match svcs.find? (fun p => p.1 == name) with
  | none => (some (.serviceBase ErrServiceNotFound ("service " ++ name ++ " not found")), svcs)
  | some p =>
    match p.2.Stop with
    | (some e, s') =>
      (some (.wrapped ("failed to stop service " ++ name) e), updateService svcs name s')
    | (none, s') => (none, updateService svcs name s')

/-- The `for _, name := range startOrder` loop of `ServiceGroup.Start`:
strictly sequential, the first failure aborts and is returned.  The final
Bool records whether `go sg.healthCheckLoop()` is spawned afterwards
(`if sg.options.HealthCheckInterval > 0`). -/
def ServiceGroup.startLoop (g : ServiceGroup) :
    List String → Option GoErr × ServiceGroup × Bool
  | [] => (none, g, decide (0 < g.options.HealthCheckInterval))
  | name :: rest =>
    match ServiceGroup.startService g.services name with
    | (some e, svcs') => (some e, {g with services := svcs'}, false)
    | (none, svcs') => ServiceGroup.startLoop {g with services := svcs'} rest

/-- `ServiceGroup.Start`: the `isStarting` compare-and-swap single-flight
guard (never reset anywhere in the package), the start order, the
sequential start loop, then the conditional health-loop spawn. -/
def ServiceGroup.Start (g : ServiceGroup) :
    GoResult (Option GoErr × ServiceGroup × Bool) :=
  if g.isStarting then
    .ok (some (.serviceBase ErrInvalidState "services are already starting"), g, false)
  else
    let g₁ := {g with isStarting := true}
    match DependencyGraph.GetStartOrder g₁.nodes with
    | .crash => .crash
    | .fuelOut => .fuelOut
    | .err e => .ok (some e, g₁, false)
    | .ok order => .ok (ServiceGroup.startLoop g₁ order)

/-- `ServiceGroup.Stop`: cancel the root context, reverse the start order,
stop strictly sequentially, record and return the last error. -/
def ServiceGroup.Stop (g : ServiceGroup) : GoResult (Option GoErr × ServiceGroup) :=
  let g₁ := {g with cancelled := true}
  match DependencyGraph.GetStartOrder g₁.nodes with
  | .crash => .crash
  | .fuelOut => .fuelOut
  | .err e => .ok (some e, g₁)
  | .ok order =>
    let result := order.reverse.foldl (fun acc name =>
      match ServiceGroup.stopService acc.2 name with
      | (some e, svcs') => (some e, svcs')
      | (none, svcs') => (acc.1, svcs')) ((none : Option GoErr), g₁.services)
    .ok (result.1, {g₁ with services := result.2})

/-- The Go `EventType` constant `EventStop = "Stop"`. -/
def EventStop : String := "Stop"

/-- A published `ServiceEvent` (Time and Metadata omitted; `GracefulStop`'s
publish call leaves State unset). -/
structure ServiceEvent where
  ServiceName : String
  EventType : String
  Error : Option GoErr
deriving DecidableEq, Repr

/-- `ServiceGroup.GracefulStop`.  `timedOut` says whether the `ctx.Done()`
arm of the final select fires before all stop goroutines finish.  Each
spawned stop goroutine touches only its own service, so the concurrent
tasks are modelled by running every `stopService` against the shared
initial registry; the events are the `EventStop` publishes of the failing
tasks, in spawn order.  In the timed-out case the per-service outcomes
are unspecified and the model leaves the registry untouched. -/
def ServiceGroup.GracefulStop (g : ServiceGroup) (timedOut : Bool) :
    GoResult (Option GoErr × ServiceGroup × List ServiceEvent) :=
  let g₁ := {g with cancelled := true}
  match DependencyGraph.GetStartOrder g₁.nodes with
  | .crash => .crash
  | .fuelOut => .fuelOut
  | .err e =>
    .ok (some (.serviceCause ErrShutdownFailed "failed to determine service stop order" e),
      g₁, [])
  | .ok order =>
    let stopOrder := order.reverse
    if timedOut then
      .ok (some (.serviceCause ErrShutdownTimeout "timeout waiting for services to stop"
        .canceled), g₁, [])
    else
      let runs := stopOrder.map (fun name => (name, ServiceGroup.stopService g₁.services name))
      let events := runs.filterMap (fun r =>
        r.2.1.map (fun e => (⟨r.1, EventStop, some e⟩ : ServiceEvent)))
      let svcs' := g₁.services.map (fun p =>
        if stopOrder.contains p.1 then (p.1, (p.2.Stop).2) else p)
      .ok (none, {g₁ with services := svcs'}, events)

/-- The start loop preserves everything but the registry; on success the
spawn flag is exactly "configured interval positive". -/
theorem startLoop_fields (names : List String) : ∀ g : ServiceGroup,
    ((ServiceGroup.startLoop g names).2.1.options = g.options ∧
     (ServiceGroup.startLoop g names).2.1.isStarting = g.isStarting) ∧
    ((ServiceGroup.startLoop g names).1 = none →
      (ServiceGroup.startLoop g names).2.2 =
        decide (0 < g.options.HealthCheckInterval)) := by
  induction names with
  | nil => exact fun g => ⟨⟨rfl, rfl⟩, fun _ => rfl⟩
  | cons n ns ih =>
    intro g
    simp only [ServiceGroup.startLoop]
    cases hs : ServiceGroup.startService g.services n with
    | mk e svcs' =>
      cases e with
      | some e' => exact ⟨⟨rfl, rfl⟩, fun h => by cases h⟩
      | none => exact ih {g with services := svcs'}

/-- C2 (counterexample): constructing the group with
`HealthCheckInterval = 0` (non-positive) yields an interval of 30s, and a
successful `Start` on it does spawn the background health-check goroutine
(third component `true`) — health polling is not disabled. -/
theorem healthCheck_disable_counterexample :
    (0 : Int) ≤ 0 ∧
    (NewServiceGroup (some ⟨60000000000, 60000000000, 0⟩)).options.HealthCheckInterval =
      30000000000 ∧
    ServiceGroup.Start (NewServiceGroup (some ⟨60000000000, 60000000000, 0⟩)) =
      .ok (none, ⟨[], [], ⟨60000000000, 60000000000, 30000000000⟩, true, false⟩, true) := by
  decide

/-- C2 (amended): a non-positive `HealthCheckInterval` passed at
construction is replaced by the 30s default, so after construction the
interval is always positive; and every `Start` that returns nil spawns
the background health-check goroutine exactly when the configured
interval is positive — hence, for a constructed group, always. -/
theorem healthCheck_interval_never_disabled (opts : Option ServiceGroupOptions) :
    0 < (NewServiceGroup opts).options.HealthCheckInterval ∧
    (∀ (g g' : ServiceGroup) (r : Option GoErr) (sp : Bool),
      ServiceGroup.Start g = .ok (r, g', sp) → r = none →
      (sp = true ↔ 0 < g.options.HealthCheckInterval)) := by
  constructor
  · cases opts with
    | none => decide
    | some o =>
      by_cases h : o.HealthCheckInterval ≤ 0
      · simp [NewServiceGroup, h, DefaultServiceGroupOptions]
      · simp only [NewServiceGroup, if_neg h]
        omega
  · intro g g' r sp h hr
    unfold ServiceGroup.Start at h
    by_cases hguard : g.isStarting
    · rw [if_pos hguard] at h
      cases h
      cases hr
    · rw [if_neg hguard] at h
      dsimp only at h
      cases hgso : DependencyGraph.GetStartOrder g.nodes with
      | crash => rw [hgso] at h; cases h
      | fuelOut => rw [hgso] at h; cases h
      | err e => rw [hgso] at h; cases h; cases hr
      | ok order =>
        rw [hgso] at h
        injection h with h2
        have hr' : (ServiceGroup.startLoop {g with isStarting := true} order).1 = none := by
          rw [h2, hr]
        have hsp := (startLoop_fields order {g with isStarting := true}).2 hr'
        rw [h2] at hsp
        dsimp only at hsp
        simp [hsp]

/-- Witness for `healthCheck_interval_never_disabled`: fresh empty group,
`Start` succeeds and spawns the loop because 30s > 0. -/
theorem healthCheck_interval_never_disabled_witness :
    (0 : Int) < (NewServiceGroup none).options.HealthCheckInterval ∧
    (true = true ↔ (0 : Int) < (NewServiceGroup none).options.HealthCheckInterval) :=
  ⟨(healthCheck_interval_never_disabled none).1,
   ((healthCheck_interval_never_disabled none).2 (NewServiceGroup none)
     ⟨[], [], ⟨60000000000, 60000000000, 30000000000⟩, true, false⟩ none true
     (by decide) rfl).symm.symm⟩

/-- C10: the `isStarting` guard is never reset.  (1) Whenever the flag is
set, `Start` fails immediately with the InvalidState error "services are
already starting" and changes nothing; (2) any `Start` call that passes
the guard — whatever its result, success or error — leaves the flag set;
(3) `Stop` and (4) `GracefulStop` never touch the flag.  Hence at most one
`Start` per group instance ever proceeds past the guard, and every later
call fails, including after a failed first `Start` and after `Stop` or
`GracefulStop` completed. -/
theorem serviceGroup_start_guard_never_reset :
    (∀ g : ServiceGroup, g.isStarting = true →
      ServiceGroup.Start g =
        .ok (some (.serviceBase ErrInvalidState "services are already starting"), g, false)) ∧
    (∀ (g g' : ServiceGroup) (r : Option GoErr) (sp : Bool), g.isStarting = false →
      ServiceGroup.Start g = .ok (r, g', sp) → g'.isStarting = true) ∧
    (∀ (g g' : ServiceGroup) (r : Option GoErr), ServiceGroup.Stop g = .ok (r, g') →
      g'.isStarting = g.isStarting) ∧
    (∀ (g g' : ServiceGroup) (t : Bool) (r : Option GoErr) (evs : List ServiceEvent),
      ServiceGroup.GracefulStop g t = .ok (r, g', evs) → g'.isStarting = g.isStarting) := by
  refine ⟨?_, ?_, ?_, ?_⟩
  · intro g hg
    unfold ServiceGroup.Start
    rw [if_pos hg]
  · intro g g' r sp hg h
    unfold ServiceGroup.Start at h
    rw [if_neg (by simp [hg])] at h
    dsimp only at h
    cases hgso : DependencyGraph.GetStartOrder g.nodes with
    | crash => rw [hgso] at h; cases h
    | fuelOut => rw [hgso] at h; cases h
    | err e =>
      rw [hgso] at h
      injection h with h2
      injection h2 with ha hb
      injection hb with hb1 hb2
      rw [← hb1]
    | ok order =>
      rw [hgso] at h
      injection h with h2
      have hpres := (startLoop_fields order {g with isStarting := true}).1.2
      rw [h2] at hpres
      dsimp only at hpres
      exact hpres
  · intro g g' r h
    unfold ServiceGroup.Stop at h
    dsimp only at h
    cases hgso : DependencyGraph.GetStartOrder g.nodes with
    | crash => rw [hgso] at h; cases h
    | fuelOut => rw [hgso] at h; cases h
    | err e =>
      rw [hgso] at h
      injection h with h2
      injection h2 with ha hb
      rw [← hb]
    | ok order =>
      rw [hgso] at h
      dsimp only at h
      injection h with h2
      injection h2 with ha hb
      rw [← hb]
  · intro g g' t r evs h
    unfold ServiceGroup.GracefulStop at h
    dsimp only at h
    cases hgso : DependencyGraph.GetStartOrder g.nodes with
    | crash => rw [hgso] at h; cases h
    | fuelOut => rw [hgso] at h; cases h
    | err e =>
      rw [hgso] at h
      injection h with h2
      injection h2 with ha hb
      injection hb with hb1 hb2
      rw [← hb1]
    | ok order =>
      rw [hgso] at h
      cases t with
      | true =>
        simp only [if_true] at h
        injection h with h2
        injection h2 with ha hb
        injection hb with hb1 hb2
        rw [← hb1]
      | false =>
        simp only [Bool.false_eq_true, if_false] at h
        injection h with h2
        injection h2 with ha hb
        injection hb with hb1 hb2
        rw [← hb1]

/-- Witness for `serviceGroup_start_guard_never_reset`: a group whose
guard is set rejects `Start` with the InvalidState error. -/
theorem serviceGroup_start_guard_witness :
    ServiceGroup.Start ⟨[], [], DefaultServiceGroupOptions, true, false⟩ =
      .ok (some (.serviceBase ErrInvalidState "services are already starting"),
        ⟨[], [], DefaultServiceGroupOptions, true, false⟩, false) :=
  serviceGroup_start_guard_never_reset.1 ⟨[], [], DefaultServiceGroupOptions, true, false⟩ rfl

/-- C7: when the deadline does not pass before the stop tasks finish (and
the stop order is computable), `GracefulStop` returns nil even if
individual stop hooks failed, and every service whose stop failed has an
event of type Stop with a non-nil error published for it — the failure is
never surfaced through the return value. -/
theorem gracefulStop_nil_and_publishes_failures (g : ServiceGroup) (order : List String)
    (h : DependencyGraph.GetStartOrder g.nodes = .ok order) :
    ∃ (g' : ServiceGroup) (evs : List ServiceEvent),
      ServiceGroup.GracefulStop g false = .ok (none, g', evs) ∧
      ∀ name e, name ∈ order →
        (ServiceGroup.stopService g.services name).1 = some e →
        (⟨name, EventStop, some e⟩ : ServiceEvent) ∈ evs := by
  unfold ServiceGroup.GracefulStop
  dsimp only
  rw [h]
  simp only [Bool.false_eq_true, if_false]
  refine ⟨_, _, rfl, ?_⟩
  intro name e hmem hstop
  rw [List.mem_filterMap]
  refine ⟨(name, ServiceGroup.stopService g.services name), ?_, ?_⟩
  · exact List.mem_map_of_mem _ (List.mem_reverse.mpr hmem)
  · rw [hstop]
    rfl

/-- Concrete three-service group for the C7 witness: all Running, the stop
hook of "s2" fails. -/
def c7Group : ServiceGroup :=
  ⟨[("s1", ⟨"s1", [], 50, StateRunning, none, none, none⟩),
    ("s2", ⟨"s2", [], 50, StateRunning, none, none, some (some (.hook "stop boom"))⟩),
    ("s3", ⟨"s3", [], 50, StateRunning, none, none, none⟩)],
   [⟨"s1", 50, []⟩, ⟨"s2", 50, []⟩, ⟨"s3", 50, []⟩],
   DefaultServiceGroupOptions, true, false⟩

/-- Witness for `gracefulStop_nil_and_publishes_failures`: on `c7Group`,
`GracefulStop` without timeout returns nil and the event list contains the
Stop event for "s2" carrying the wrapped hook error. -/
theorem gracefulStop_nil_and_publishes_failures_witness :
    ∃ (g' : ServiceGroup) (evs : List ServiceEvent),
      ServiceGroup.GracefulStop c7Group false = .ok (none, g', evs) ∧
      (⟨"s2", EventStop,
        some (.wrapped "failed to stop service s2" (.hook "stop boom"))⟩ : ServiceEvent) ∈ evs := by
  obtain ⟨g', evs, heq, hmem⟩ :=
    gracefulStop_nil_and_publishes_failures c7Group ["s3", "s2", "s1"] (by decide)
  exact ⟨g', evs, heq,
    hmem "s2" (.wrapped "failed to stop service s2" (.hook "stop boom"))
      (by decide) (by decide)⟩

/-- Witness for `transitionTo_default_table_edges` at the undocumented
pair (Running, Uninitialized): the transition fails with the
InvalidState-coded error and the state stays Running. -/
theorem transitionTo_default_table_edges_witness :
    (StateRunning, StateUninitialized) ∉ documentedEdges ∧
    (transitionToQuiet makeDefaultTransitions StateRunning StateUninitialized).2 =
      StateRunning ∧
    ((transitionToQuiet makeDefaultTransitions StateRunning
      StateUninitialized).1.map GoErr.code) = some (some ErrInvalidState) :=
  ⟨by decide, (transitionTo_default_table_edges StateRunning StateUninitialized).2 (by decide)⟩
